/-
Verification of the batch notification dispatcher
(src/src/app/api/resend/post/route.ts) of the `rifas` repository.

The dispatcher fetches tickets whose payment is validated and which have
not been emailed yet, groups them by purchasing user, sends one email per
user through the Resend provider, marks the tickets of successfully
emailed groups as sent, and returns a partitioned success/failure report.

We embed the route handler shallowly: the database fetch, the provider
send and the database update are inputs (an environment mapping each
group to the outcome the external service would produce), and the handler
body is translated statement by statement into pure Lean functions.
-/
import Mathlib

namespace Rifas

/-! ### Data model (the TypeScript interfaces of route.ts) -/

/-- `interface UserData { id_user; name; email; id_card }`.
`email` is `Option String` so that a `null` column and an empty string can
both be distinguished from a usable address (JavaScript truthiness). -/
structure UserData where
  id_user : Nat
  name : String
  email : Option String
  id_card : String
  deriving Repr, DecidableEq

/-- `interface PayData { id_pay; validated; user_data: UserData[] | null }`. -/
structure PayData where
  id_pay : Nat
  validated : Bool
  user_data : Option (List UserData)
  deriving Repr, DecidableEq

/-- The `pay_data` field of a ticket: `PayData | PayData[] | null`. -/
inductive PayField where
  | single (p : PayData)
  | arr (l : List PayData)
  | null
  deriving Repr, DecidableEq

/-- `interface TicketData { id_tickets; tickets; email_send; pay_data }`. -/
structure TicketData where
  id_tickets : Nat
  tickets : String
  email_send : Bool
  pay_data : PayField
  deriving Repr, DecidableEq

/-! ### User resolution (lines 93–97 of route.ts) -/

/-- `Array.isArray(ticket.pay_data) ? ticket.pay_data[0] : ticket.pay_data`:
an array contributes its first element (`undefined`, i.e. `none`, when
empty), `null` stays `null`, a plain object is taken as is. -/
def resolvePay : PayField → Option PayData
  | .single p => some p
  | .arr l => l.head?
  | .null => none

/-- `const user = Array.isArray(userArray) ? userArray[0] : userArray`
applied to `payData?.user_data`: optional chaining on the payment, then
first element of the user array (`none` for `null` or an empty array). -/
def resolveUser (t : TicketData) : Option UserData :=
  match resolvePay t.pay_data with
  | none => none
  | some p =>
    match p.user_data with
    | none => none
    | some us => us.head?

/-- The user identifier a ticket resolves to, when it resolves at all. -/
def resolveUserId (t : TicketData) : Option Nat :=
  (resolveUser t).map (·.id_user)

/-! ### Grouping by user (lines 90–111 of route.ts) -/

/-- One entry of `usersToEmail`: the user fields captured from the first
ticket that created the group, plus the accumulated ticket list. -/
structure Group where
  id_user : Nat
  name : String
  email : Option String
  id_card : String
  tickets : List TicketData
  deriving Repr, DecidableEq

/-- The group freshly created for a user (`tickets: []` in the source;
the push that immediately follows is part of `groupStep`). -/
def mkGroup (u : UserData) : Group :=
  { id_user := u.id_user, name := u.name, email := u.email,
    id_card := u.id_card, tickets := [] }

/-- Append ticket `t` to the group keyed by `i` (the `push` on line 110). -/
def pushTicket (acc : List Group) (i : Nat) (t : TicketData) : List Group :=
  acc.map (fun g => if g.id_user = i then { g with tickets := g.tickets ++ [t] } else g)

/-- One iteration of the `for (const ticket of ticketsData)` loop:
resolve the user, `continue` when it is missing, otherwise create the
group on first sight and push the ticket. -/
def groupStep (acc : List Group) (t : TicketData) : List Group :=
  match resolveUser t with
  | none => acc
  | some u =>
    let acc' := if acc.any (fun g => g.id_user = u.id_user) then acc
                else acc ++ [mkGroup u]
    pushTicket acc' u.id_user t

/-- The `usersToEmail` object, as an association list in insertion order. -/
def groupTickets (ts : List TicketData) : List Group :=
  ts.foldl groupStep []

/-- `Object.values(usersToEmail)`: the keys are `String(user.id_user)`,
canonical integer strings, which a JavaScript object enumerates in
ascending numeric order regardless of insertion order. -/
def jsValues (gs : List Group) : List Group :=
  List.insertionSort (fun a b => a.id_user ≤ b.id_user) gs

/-- The list of groups the dispatcher fans out over. -/
def dispatchGroups (ts : List TicketData) : List Group :=
  jsValues (groupTickets ts)

/-! ### Rendering helpers (lines 122–135 of route.ts) -/

/-- `String(t.tickets).padStart(4, '0')`. -/
def padStart4 (s : String) : String :=
  if s.length ≥ 4 then s else String.mk (List.replicate (4 - s.length) '0') ++ s

/-- `user.name.charAt(0).toUpperCase() + user.name.slice(1)` (the variable
is called `nameToLowerCase` in the source despite capitalizing). -/
def capitalizeFirst (s : String) : String :=
  match s.data with
  | [] => ""
  | c :: cs => String.mk (Char.toUpper c :: cs)

/-- `arr.join(', ')`. -/
def joinComma (l : List String) : String :=
  String.intercalate ", " l

/-- JavaScript truthiness of the `email` field: `null`/`undefined` and the
empty string are falsy. -/
def emailTruthy : Option String → Bool
  | none => false
  | some s => !(s = "")

/-- The payload handed to `resend.emails.send` (lines 126–136): sender,
recipient, subject and the props of the `TicketEmail` template. -/
structure EmailPayload where
  fromAddr : String
  toAddr : String
  subject : String
  reactName : String
  reactTickets : String
  reactTicketCount : Nat
  reactCardId : String
  deriving Repr, DecidableEq

/-! ### External outcomes -/

/-- Successful provider response (`sentEmail`), carrying the id. -/
structure SendOk where
  id : String
  deriving Repr, DecidableEq

/-- Provider error object: its `message` field (empty models a falsy
message) and its `JSON.stringify` rendering. -/
structure SendErr where
  message : String
  stringified : String
  deriving Repr, DecidableEq

/-- `sendError.message || JSON.stringify(sendError)` (line 140). -/
def sendErrText (e : SendErr) : String :=
  if e.message = "" then e.stringified else e.message

/-- Supabase update error (`updateError`), carrying its message. -/
structure UpdateErr where
  message : String
  deriving Repr, DecidableEq

/-- The behaviour of the external services during one invocation: what
the provider answers to the group's send call, and what the database
answers to the group's update call. -/
structure Env where
  sendResult : Group → Except SendErr SendOk
  updateResult : Group → Option UpdateErr

/-! ### Report entries and settled results -/

/-- An element of `results.success`: `{ id_user, email_id }`. -/
structure SuccessEntry where
  id_user : Nat
  email_id : String
  deriving Repr, DecidableEq

/-- An element of `results.failed`: `{ id_user, error }`. -/
structure FailedEntry where
  id_user : Nat
  error : String
  deriving Repr, DecidableEq

/-- The value of a fulfilled promise: either the
`{ status: 'fulfilled', value }` object of line 156 or the
`{ status: 'rejected', reason }` object of lines 116–119. -/
inductive InnerResult where
  | innerFulfilled (value : SuccessEntry)
  | innerRejected (reason : FailedEntry)
  deriving Repr, DecidableEq

/-- One element of `Promise.allSettled(emailPromises)`: the promise
either fulfilled with an inner result or rejected with the thrown
`{ id_user, error }` object. -/
inductive Settled where
  | fulfilled (v : InnerResult)
  | rejected (reason : FailedEntry)
  deriving Repr, DecidableEq

/-- `'El usuario no tiene un email registrado.'` (line 118). -/
def missingEmailMsg : String := "El usuario no tiene un email registrado."

/-- `` `Email sent, but DB update failed: ${updateError.message}` ``. -/
def updateFailText (e : UpdateErr) : String :=
  "Email sent, but DB update failed: " ++ e.message

/-- An attempted `update({email_send: true}).in('id_tickets', ids)` call:
the targeted ids and the error, if the call failed. -/
structure UpdateAttempt where
  ids : List Nat
  result : Option UpdateErr
  deriving Repr, DecidableEq

/-- Everything one group's async closure produces: its settled promise,
the provider calls it made (zero or one) and the update calls it made
(zero or one, failed or not). -/
structure GroupRun where
  settled : Settled
  sendCalls : List EmailPayload
  updateAttempts : List UpdateAttempt
  deriving Repr, DecidableEq

/-- The payload rendered for a group (only reached when the email is
truthy): `tickets` padded and joined, the capitalized name (with the
`|| 'Participante'` fallback on the template prop), the subject with its
trailing space. -/
def renderPayload (user : Group) (email : String) : EmailPayload :=
  let tickets := user.tickets.map (fun t => padStart4 t.tickets)
  let nameCap := capitalizeFirst user.name
  { fromAddr := "JuegacnNosotros <noreply@juegacnnosotros.com>"
    toAddr := email
    subject := "Tu Compra ha sido Aprobada " ++ nameCap ++ " "
    reactName := if nameCap = "" then "Participante" else nameCap
    reactTickets := joinComma tickets
    reactTicketCount := tickets.length
    reactCardId := user.id_card }

/-- The async closure of lines 114–157, one group at a time. -/
def processGroup (env : Env) (user : Group) : GroupRun :=
  match user.email with
  | none =>
    { settled := .fulfilled (.innerRejected ⟨user.id_user, missingEmailMsg⟩)
      sendCalls := [], updateAttempts := [] }
  | some e =>
    if e = "" then
      { settled := .fulfilled (.innerRejected ⟨user.id_user, missingEmailMsg⟩)
        sendCalls := [], updateAttempts := [] }
    else
      let payload := renderPayload user e
      match env.sendResult user with
      | .error sendError =>
        { settled := .rejected ⟨user.id_user, sendErrText sendError⟩
          sendCalls := [payload], updateAttempts := [] }
      | .ok sentEmail =>
        let ticketIdsToUpdate := user.tickets.map (·.id_tickets)
        match env.updateResult user with
        | some updateError =>
          { settled := .rejected ⟨user.id_user, updateFailText updateError⟩
            sendCalls := [payload]
            updateAttempts := [⟨ticketIdsToUpdate, some updateError⟩] }
        | none =>
          { settled := .fulfilled (.innerFulfilled ⟨user.id_user, sentEmail.id⟩)
            sendCalls := [payload]
            updateAttempts := [⟨ticketIdsToUpdate, none⟩] }

/-! ### Collecting the settled results (lines 163–178) -/

/-- The `results` record. -/
structure Results where
  success : List SuccessEntry
  failed : List FailedEntry
  deriving Repr, DecidableEq

/-- One iteration of `settledResults.forEach`: a fulfilled promise is
dispatched on its inner `status` (the inner `value`/`reason` objects are
always truthy), a rejected promise pushes its reason onto `failed`. -/
def collectResult (r : Results) (s : Settled) : Results :=
  match s with
  | .fulfilled (.innerFulfilled v) => { r with success := r.success ++ [v] }
  | .fulfilled (.innerRejected e) => { r with failed := r.failed ++ [e] }
  | .rejected e => { r with failed := r.failed ++ [e] }

/-- The success entry of a settled result, as a zero-or-one list. -/
def succOf : Settled → List SuccessEntry
  | .fulfilled (.innerFulfilled v) => [v]
  | _ => []

/-- The failed entry of a settled result, as a zero-or-one list. -/
def failOf : Settled → List FailedEntry
  | .fulfilled (.innerFulfilled _) => []
  | .fulfilled (.innerRejected e) => [e]
  | .rejected e => [e]

/-! ### Database rows and updates -/

/-- A row of the `tickets` table, restricted to the columns the update
touches or keys on. -/
structure Row where
  id_tickets : Nat
  email_send : Bool
  deriving Repr, DecidableEq

/-- Apply one settled update attempt to the table: a successful call sets
`email_send := true` on exactly the rows whose id is in the call's `.in`
list; a failed call changes nothing. -/
def applyAttempt (db : List Row) (a : UpdateAttempt) : List Row :=
  match a.result with
  | some _ => db
  | none => db.map (fun r =>
      if r.id_tickets ∈ a.ids then { r with email_send := true } else r)

/-! ### The POST handler (lines 42–185) -/

/-- What the supabase fetch of lines 55–68 returned: an error or the
joined rows. -/
inductive FetchResult where
  | err (message : String)
  | ok (ticketsData : List TicketData)

/-- The response body/status, one constructor per `return` of the
handler: 401, the 500 fetch-error response, the no-op message, and the
completed report. -/
inductive Response where
  | unauthorized
  | fetchFailed (error : String)
  | nothingPending
  | completed (results : Results)
  deriving Repr, DecidableEq

/-- The observable outcome of one invocation: the HTTP response, the
table after all updates, and every external call that was made. -/
structure PostResult where
  response : Response
  db : List Row
  sendCalls : List EmailPayload
  updateAttempts : List UpdateAttempt
  deriving Repr, DecidableEq

/-- The `POST` handler. The bearer check of lines 44–47, the fetch-error
and empty-set checks of lines 70–80, then grouping, the concurrent
fan-out, `Promise.allSettled`, the `forEach` partition, and the final
JSON response. Updates commute (each sets a fixed id set to `true`), so
folding them in group order models any interleaving of the concurrent
closures. -/
def POST (authHeader : Option String) (cronSecret : String)
    (fetch : FetchResult) (env : Env) (db : List Row) : PostResult :=
  if authHeader ≠ some ("Bearer " ++ cronSecret) then
    { response := .unauthorized, db := db, sendCalls := [], updateAttempts := [] }
  else
    match fetch with
    | .err m =>
      { response := .fetchFailed m, db := db, sendCalls := [], updateAttempts := [] }
    | .ok ticketsData =>
      if ticketsData.length = 0 then
        { response := .nothingPending, db := db, sendCalls := [], updateAttempts := [] }
      else
        let groups := dispatchGroups ticketsData
        let runs := groups.map (processGroup env)
        let settledResults := runs.map (·.settled)
        let results := settledResults.foldl collectResult ⟨[], []⟩
        let attempts := runs.flatMap (·.updateAttempts)
        { response := .completed results
          db := attempts.foldl applyAttempt db
          sendCalls := runs.flatMap (·.sendCalls)
          updateAttempts := attempts }

/-- The success list of a completed response (`[]` otherwise). -/
def successList (p : PostResult) : List SuccessEntry :=
  match p.response with
  | .completed r => r.success
  | _ => []

/-- The failed list of a completed response (`[]` otherwise). -/
def failedList (p : PostResult) : List FailedEntry :=
  match p.response with
  | .completed r => r.failed
  | _ => []

/-- The report's success entries mentioning user `i`. -/
def successFor (p : PostResult) (i : Nat) : List SuccessEntry :=
  (successList p).filter (fun v => v.id_user = i)

/-- The report's failed entries mentioning user `i`. -/
def failedFor (p : PostResult) (i : Nat) : List FailedEntry :=
  (failedList p).filter (fun v => v.id_user = i)

/-- The effect of one settled update call on one row. -/
def stepRow (a : UpdateAttempt) (r : Row) : Row :=
  match a.result with
  | some _ => r
  | none => if r.id_tickets ∈ a.ids then { r with email_send := true } else r

/-- The cumulative effect of the settled update calls on one row:
`email_send` is forced to `true` exactly when some successful call
targeted the row's identifier. -/
def finalRow (attempts : List UpdateAttempt) (r : Row) : Row :=
  if attempts.any (fun a => a.result.isNone && decide (r.id_tickets ∈ a.ids)) then
    { r with email_send := true }
  else r

/-! ### Concrete sample data (the spec's end-to-end example) -/

/-- User U1 with a usable email address. -/
def uAna : UserData := ⟨1, "ana", some "ana@example.com", "V100"⟩

/-- User U2 without an email address. -/
def uBob : UserData := ⟨2, "bob", none, "V200"⟩

/-- Eligible ticket with code "7" belonging to U1. -/
def tk7 : TicketData := ⟨10, "7", false, .single ⟨100, true, some [uAna]⟩⟩

/-- Eligible ticket with code "42" belonging to U1. -/
def tk42 : TicketData := ⟨11, "42", false, .single ⟨100, true, some [uAna]⟩⟩

/-- Eligible ticket with code "3" belonging to U2. -/
def tk3 : TicketData := ⟨12, "3", false, .single ⟨101, true, some [uBob]⟩⟩

/-- A fetched ticket whose payment row resolves to no user record. -/
def tkNull : TicketData := ⟨14, "9", false, .null⟩

def tsSample : List TicketData := [tk7, tk42, tk3]

/-- The group the dispatcher forms for U1. -/
def gAna : Group := ⟨1, "ana", some "ana@example.com", "V100", [tk7, tk42]⟩

/-- The group the dispatcher forms for U2. -/
def gBob : Group := ⟨2, "bob", none, "V200", [tk3]⟩

/-- Provider and database both succeed for every group. -/
def envOk : Env := ⟨fun _ => .ok ⟨"em1"⟩, fun _ => none⟩

/-- The provider rejects every send. -/
def envSendFail : Env := ⟨fun _ => .error ⟨"provider down", "{}"⟩, fun _ => none⟩

/-- The provider succeeds but every database update fails. -/
def envUpdFail : Env := ⟨fun _ => .ok ⟨"em1"⟩, fun _ => some ⟨"db down"⟩⟩

/-- The provider fails only for U2's group. -/
def envBobFail : Env :=
  ⟨fun g => if g.id_user = 2 then .error ⟨"provider down", "{}"⟩ else .ok ⟨"em1"⟩,
    fun _ => none⟩

/-- The tickets table backing the sample. -/
def dbSample : List Row := [⟨10, false⟩, ⟨11, false⟩, ⟨12, false⟩, ⟨14, false⟩]

/-- A user whose stored name is empty. -/
def uEve : UserData := ⟨3, "", some "eve@example.com", "V300"⟩

/-- Eligible ticket with code "5" belonging to the empty-named user. -/
def tkEve : TicketData := ⟨13, "5", false, .single ⟨102, true, some [uEve]⟩⟩

/-! ### Structural lemmas about the grouping loop -/

theorem pushTicket_map_id (acc : List Group) (i : Nat) (t : TicketData) :
    (pushTicket acc i t).map Group.id_user = acc.map Group.id_user := by
  unfold pushTicket
  rw [List.map_map]
  apply List.map_congr_left
  intro g _
  by_cases h : g.id_user = i <;> simp [h]

theorem any_id_eq (acc : List Group) (i : Nat) :
    acc.any (fun g => g.id_user = i) = true ↔ i ∈ acc.map Group.id_user := by
  rw [List.any_eq_true]
  constructor
  · rintro ⟨g, hg, hid⟩
    exact List.mem_map.mpr ⟨g, hg, of_decide_eq_true hid⟩
  · intro h
    obtain ⟨g, hg, hid⟩ := List.mem_map.mp h
    exact ⟨g, hg, decide_eq_true hid⟩

theorem groupStep_map_id (acc : List Group) (t : TicketData) :
    (groupStep acc t).map Group.id_user =
      match resolveUser t with
      | none => acc.map Group.id_user
      | some u =>
        if u.id_user ∈ acc.map Group.id_user then acc.map Group.id_user
        else acc.map Group.id_user ++ [u.id_user] := by
  unfold groupStep
  cases hr : resolveUser t with
  | none => rfl
  | some u =>
    by_cases hm : u.id_user ∈ acc.map Group.id_user
    · have hany : acc.any (fun g => g.id_user = u.id_user) = true :=
        (any_id_eq acc u.id_user).mpr hm
      simp [hany, hm, pushTicket_map_id]
    · have hany : acc.any (fun g => g.id_user = u.id_user) = false := by
        rcases Bool.eq_false_or_eq_true (acc.any (fun g => g.id_user = u.id_user)) with h | h
        · exact absurd ((any_id_eq acc u.id_user).mp h) hm
        · exact h
      simp [hany, hm, pushTicket_map_id, mkGroup]

theorem groupStep_nodup {acc : List Group} {t : TicketData}
    (h : (acc.map Group.id_user).Nodup) :
    ((groupStep acc t).map Group.id_user).Nodup := by
  rw [groupStep_map_id]
  cases hr : resolveUser t with
  | none => exact h
  | some u =>
    by_cases hm : u.id_user ∈ acc.map Group.id_user
    · simpa [hm] using h
    · simp [hm, List.nodup_append, h]

theorem groups_id_inj {acc : List Group} (h : (acc.map Group.id_user).Nodup)
    {g1 g2 : Group} (h1 : g1 ∈ acc) (h2 : g2 ∈ acc)
    (he : g1.id_user = g2.id_user) : g1 = g2 :=
  List.inj_on_of_nodup_map h h1 h2 he

theorem mem_pushTicket {acc : List Group} {g' : Group} {i : Nat} {t : TicketData} :
    g' ∈ pushTicket acc i t ↔
      ∃ g ∈ acc,
        g' = if g.id_user = i then { g with tickets := g.tickets ++ [t] } else g := by
  simp [pushTicket, List.mem_map, eq_comm]

theorem groupStep_tickets_mem (acc : List Group) (t : TicketData) (i : Nat)
    (t' : TicketData) :
    (∃ g0 ∈ groupStep acc t, g0.id_user = i ∧ t' ∈ g0.tickets) ↔
      (∃ g0 ∈ acc, g0.id_user = i ∧ t' ∈ g0.tickets) ∨
        (t' = t ∧ resolveUserId t = some i) := by
  cases hr : resolveUser t with
  | none =>
    have hstep : groupStep acc t = acc := by unfold groupStep; rw [hr]
    rw [hstep]
    simp [resolveUserId, hr]
  | some u =>
    have hrid : resolveUserId t = some u.id_user := by simp [resolveUserId, hr]
    rw [hrid]
    by_cases hm : u.id_user ∈ acc.map Group.id_user
    · have hany : acc.any (fun g => g.id_user = u.id_user) = true :=
        (any_id_eq acc u.id_user).mpr hm
      have hstep : groupStep acc t = pushTicket acc u.id_user t := by
        unfold groupStep; rw [hr]; simp [hany]
      rw [hstep]
      constructor
      · rintro ⟨g0, hg0, hid, ht'⟩
        obtain ⟨g, hg, rfl⟩ := mem_pushTicket.mp hg0
        by_cases hgi : g.id_user = u.id_user
        · rw [if_pos hgi] at hid ht'
          rcases List.mem_append.mp ht' with h | h
          · exact Or.inl ⟨g, hg, hid, h⟩
          · refine Or.inr ⟨List.mem_singleton.mp h, ?_⟩
            rw [← hid, hgi]
        · rw [if_neg hgi] at hid ht'
          exact Or.inl ⟨g, hg, hid, ht'⟩
      · rintro (⟨g0, hg0, hid, ht'⟩ | ⟨rfl, hii⟩)
        · refine ⟨if g0.id_user = u.id_user then
              { g0 with tickets := g0.tickets ++ [t] } else g0,
            mem_pushTicket.mpr ⟨g0, hg0, rfl⟩, ?_, ?_⟩
          · by_cases h : g0.id_user = u.id_user
            · rw [if_pos h]; exact hid
            · rw [if_neg h]; exact hid
          · by_cases h : g0.id_user = u.id_user
            · rw [if_pos h]; exact List.mem_append.mpr (Or.inl ht')
            · rw [if_neg h]; exact ht'
        · obtain ⟨g0, hg0, hgid⟩ := List.mem_map.mp hm
          have hui : u.id_user = i := Option.some.inj hii
          refine ⟨{ g0 with tickets := g0.tickets ++ [t'] },
            mem_pushTicket.mpr ⟨g0, hg0, by rw [if_pos hgid]⟩, by simpa using hgid.trans hui, by simp⟩
    · have hany : acc.any (fun g => g.id_user = u.id_user) = false := by
        rcases Bool.eq_false_or_eq_true (acc.any (fun g => g.id_user = u.id_user)) with h | h
        · exact absurd ((any_id_eq acc u.id_user).mp h) hm
        · exact h
      have hstep : groupStep acc t = pushTicket (acc ++ [mkGroup u]) u.id_user t := by
        unfold groupStep; rw [hr]; simp [hany]
      rw [hstep]
      constructor
      · rintro ⟨g0, hg0, hid, ht'⟩
        obtain ⟨g, hg, rfl⟩ := mem_pushTicket.mp hg0
        rcases List.mem_append.mp hg with hg' | hg'
        · have hgi : ¬g.id_user = u.id_user := fun h =>
            hm (h ▸ List.mem_map.mpr ⟨g, hg', rfl⟩)
          rw [if_neg hgi] at hid ht'
          exact Or.inl ⟨g, hg', hid, ht'⟩
        · have hgu : g = mkGroup u := List.mem_singleton.mp hg'
          subst hgu
          have hcond : (mkGroup u).id_user = u.id_user := rfl
          rw [if_pos hcond] at hid ht'
          simp only [mkGroup, List.nil_append] at hid ht'
          exact Or.inr ⟨List.mem_singleton.mp ht', by rw [← hid]⟩
      · rintro (⟨g0, hg0, hid, ht'⟩ | ⟨rfl, hii⟩)
        · have hgi : ¬g0.id_user = u.id_user := fun h =>
            hm (h ▸ List.mem_map.mpr ⟨g0, hg0, rfl⟩)
          refine ⟨g0, mem_pushTicket.mpr
            ⟨g0, List.mem_append.mpr (Or.inl hg0), by rw [if_neg hgi]⟩, hid, ht'⟩
        · have hui : u.id_user = i := Option.some.inj hii
          refine ⟨{ mkGroup u with tickets := [t'] },
            mem_pushTicket.mpr ⟨mkGroup u,
              List.mem_append.mpr (Or.inr (List.mem_singleton.mpr rfl)), ?_⟩,
            by simpa [mkGroup] using hui, by simp⟩
          have hcond : (mkGroup u).id_user = u.id_user := rfl
          rw [if_pos hcond]
          simp [mkGroup]

theorem foldl_groupStep_nodup (ts : List TicketData) :
    ∀ acc : List Group, (acc.map Group.id_user).Nodup →
      ((ts.foldl groupStep acc).map Group.id_user).Nodup := by
  induction ts with
  | nil => intro acc h; exact h
  | cons t ts ih =>
    intro acc h
    rw [List.foldl_cons]
    exact ih _ (groupStep_nodup h)

theorem foldl_groupStep_tickets_mem (ts : List TicketData) :
    ∀ (acc : List Group), (acc.map Group.id_user).Nodup →
      ∀ g ∈ ts.foldl groupStep acc, ∀ t',
        t' ∈ g.tickets ↔
          (∃ g0 ∈ acc, g0.id_user = g.id_user ∧ t' ∈ g0.tickets) ∨
            (t' ∈ ts ∧ resolveUserId t' = some g.id_user) := by
  induction ts with
  | nil =>
    intro acc hN g hg t'
    constructor
    · intro h
      exact Or.inl ⟨g, hg, rfl, h⟩
    · rintro (⟨g0, hg0, hid, ht⟩ | ⟨h, _⟩)
      · rwa [← groups_id_inj hN hg0 hg hid]
      · cases h
  | cons t ts ih =>
    intro acc hN g hg t'
    rw [List.foldl_cons] at hg
    rw [ih _ (groupStep_nodup hN) g hg t', groupStep_tickets_mem acc t g.id_user t']
    constructor
    · rintro ((⟨g0, hg0, hid, ht⟩ | ⟨rfl, hrid⟩) | ⟨hts, hrid⟩)
      · exact Or.inl ⟨g0, hg0, hid, ht⟩
      · exact Or.inr ⟨List.mem_cons_self _ _, hrid⟩
      · exact Or.inr ⟨List.mem_cons_of_mem t hts, hrid⟩
    · rintro (⟨g0, hg0, hid, ht⟩ | ⟨hts, hrid⟩)
      · exact Or.inl (Or.inl ⟨g0, hg0, hid, ht⟩)
      · rcases List.mem_cons.mp hts with rfl | h
        · exact Or.inl (Or.inr ⟨rfl, hrid⟩)
        · exact Or.inr ⟨h, hrid⟩

theorem foldl_groupStep_id_mem (ts : List TicketData) :
    ∀ (acc : List Group) (i : Nat),
      i ∈ (ts.foldl groupStep acc).map Group.id_user ↔
        i ∈ acc.map Group.id_user ∨ ∃ t ∈ ts, resolveUserId t = some i := by
  induction ts with
  | nil => intro acc i; simp
  | cons t ts ih =>
    intro acc i
    rw [List.foldl_cons, ih, groupStep_map_id]
    cases hr : resolveUser t with
    | none =>
      have hrid : resolveUserId t = none := by simp [resolveUserId, hr]
      simp only [List.mem_cons]
      constructor
      · rintro (h | ⟨t0, ht0, h0⟩)
        · exact Or.inl h
        · exact Or.inr ⟨t0, Or.inr ht0, h0⟩
      · rintro (h | ⟨t0, ht0, h0⟩)
        · exact Or.inl h
        · rcases ht0 with rfl | ht0
          · rw [hrid] at h0; cases h0
          · exact Or.inr ⟨t0, ht0, h0⟩
    | some u =>
      have hrid : resolveUserId t = some u.id_user := by simp [resolveUserId, hr]
      dsimp only
      by_cases hm : u.id_user ∈ acc.map Group.id_user
      · rw [if_pos hm]
        simp only [List.mem_cons]
        constructor
        · rintro (h | ⟨t0, ht0, h0⟩)
          · exact Or.inl h
          · exact Or.inr ⟨t0, Or.inr ht0, h0⟩
        · rintro (h | ⟨t0, ht0, h0⟩)
          · exact Or.inl h
          · rcases ht0 with rfl | ht0
            · rw [hrid] at h0
              exact Or.inl (Option.some.inj h0 ▸ hm)
            · exact Or.inr ⟨t0, ht0, h0⟩
      · rw [if_neg hm]
        simp only [List.mem_append, List.mem_singleton, List.mem_cons]
        constructor
        · rintro ((h | h) | ⟨t0, ht0, h0⟩)
          · exact Or.inl h
          · rcases h with rfl | h
            · exact Or.inr ⟨t, Or.inl rfl, hrid⟩
            · cases h
          · exact Or.inr ⟨t0, Or.inr ht0, h0⟩
        · rintro (h | ⟨t0, ht0, h0⟩)
          · exact Or.inl (Or.inl h)
          · rcases ht0 with rfl | ht0
            · rw [hrid] at h0
              exact Or.inl (Or.inr (Or.inl (Option.some.inj h0).symm))
            · exact Or.inr ⟨t0, ht0, h0⟩

/-- A group of `usersToEmail` holds a ticket exactly when that ticket was
fetched and its resolved user carries the group's key. -/
theorem mem_groupTickets_tickets {ts : List TicketData} {g : Group}
    (hg : g ∈ groupTickets ts) (t' : TicketData) :
    t' ∈ g.tickets ↔ t' ∈ ts ∧ resolveUserId t' = some g.id_user := by
  have h := foldl_groupStep_tickets_mem ts [] (by simp) g hg t'
  simpa using h

/-- The keys of `usersToEmail` are exactly the resolved user identifiers. -/
theorem groupTickets_id_mem (ts : List TicketData) (i : Nat) :
    i ∈ (groupTickets ts).map Group.id_user ↔
      ∃ t ∈ ts, resolveUserId t = some i := by
  have h := foldl_groupStep_id_mem ts [] i
  simpa using h

/-- The keys of `usersToEmail` are pairwise distinct. -/
theorem groupTickets_nodup (ts : List TicketData) :
    ((groupTickets ts).map Group.id_user).Nodup :=
  foldl_groupStep_nodup ts [] (by simp)

/-- `Object.values` is a permutation: membership in the dispatched group
list coincides with membership in `usersToEmail`. -/
theorem mem_dispatchGroups {ts : List TicketData} {g : Group} :
    g ∈ dispatchGroups ts ↔ g ∈ groupTickets ts :=
  (List.perm_insertionSort _ _).mem_iff

theorem dispatchGroups_nodup (ts : List TicketData) :
    ((dispatchGroups ts).map Group.id_user).Nodup := by
  have hp : List.Perm (dispatchGroups ts) (groupTickets ts) :=
    List.perm_insertionSort _ _
  exact (hp.map Group.id_user).nodup_iff.mpr (groupTickets_nodup ts)

/-! ### Per-group processing lemmas -/

theorem processGroup_noEmail {env : Env} {g : Group}
    (h : emailTruthy g.email = false) :
    processGroup env g =
      { settled := .fulfilled (.innerRejected ⟨g.id_user, missingEmailMsg⟩),
        sendCalls := [], updateAttempts := [] } := by
  cases he : g.email with
  | none => simp [processGroup, he]
  | some e =>
    have he' : e = "" := by
      rw [he] at h
      simpa [emailTruthy] using h
    subst he'
    simp [processGroup, he]

theorem processGroup_sendErr {env : Env} {g : Group} {e : String} {se : SendErr}
    (he : g.email = some e) (hne : e ≠ "") (hs : env.sendResult g = .error se) :
    processGroup env g =
      { settled := .rejected ⟨g.id_user, sendErrText se⟩,
        sendCalls := [renderPayload g e], updateAttempts := [] } := by
  simp [processGroup, he, hne, hs]

theorem processGroup_updateErr {env : Env} {g : Group} {e : String}
    {so : SendOk} {ue : UpdateErr} (he : g.email = some e) (hne : e ≠ "")
    (hs : env.sendResult g = .ok so) (hu : env.updateResult g = some ue) :
    processGroup env g =
      { settled := .rejected ⟨g.id_user, updateFailText ue⟩,
        sendCalls := [renderPayload g e],
        updateAttempts := [⟨g.tickets.map (·.id_tickets), some ue⟩] } := by
  simp [processGroup, he, hne, hs, hu]

theorem processGroup_ok {env : Env} {g : Group} {e : String} {so : SendOk}
    (he : g.email = some e) (hne : e ≠ "")
    (hs : env.sendResult g = .ok so) (hu : env.updateResult g = none) :
    processGroup env g =
      { settled := .fulfilled (.innerFulfilled ⟨g.id_user, so.id⟩),
        sendCalls := [renderPayload g e],
        updateAttempts := [⟨g.tickets.map (·.id_tickets), none⟩] } := by
  simp [processGroup, he, hne, hs, hu]

/-- Every report entry a group's closure can produce carries that group's
user identifier. -/
theorem settled_id (env : Env) (g : Group) :
    (∀ v ∈ succOf (processGroup env g).settled, v.id_user = g.id_user) ∧
      (∀ f ∈ failOf (processGroup env g).settled, f.id_user = g.id_user) := by
  rcases he : g.email with _ | e
  · rw [@processGroup_noEmail env _ (by simp [emailTruthy, he])]
    simp [succOf, failOf]
  · by_cases hne : e = ""
    · subst hne
      rw [@processGroup_noEmail env _ (by simp [emailTruthy, he])]
      simp [succOf, failOf]
    · rcases hs : env.sendResult g with se | so
      · rw [processGroup_sendErr he hne hs]
        simp [succOf, failOf]
      · rcases hu : env.updateResult g with _ | ue
        · rw [processGroup_ok he hne hs hu]
          simp [succOf, failOf]
        · rw [processGroup_updateErr he hne hs hu]
          simp [succOf, failOf]

/-- Each settled promise contributes exactly one entry to the report. -/
theorem succOf_failOf_length (s : Settled) :
    (succOf s).length + (failOf s).length = 1 := by
  cases s with
  | fulfilled v => cases v <;> simp [succOf, failOf]
  | rejected e => simp [succOf, failOf]

/-- The group's update calls are one call targeting exactly its own
ticket identifiers, or none at all. -/
theorem processGroup_attempts (env : Env) (g : Group) :
    (processGroup env g).updateAttempts = [] ∨
      ∃ res, (processGroup env g).updateAttempts =
        [⟨g.tickets.map (·.id_tickets), res⟩] := by
  rcases he : g.email with _ | e
  · rw [@processGroup_noEmail env _ (by simp [emailTruthy, he])]
    exact Or.inl rfl
  · by_cases hne : e = ""
    · subst hne
      rw [@processGroup_noEmail env _ (by simp [emailTruthy, he])]
      exact Or.inl rfl
    · rcases hs : env.sendResult g with se | so
      · rw [processGroup_sendErr he hne hs]
        exact Or.inl rfl
      · rcases hu : env.updateResult g with _ | ue
        · rw [processGroup_ok he hne hs hu]
          exact Or.inr ⟨none, rfl⟩
        · rw [processGroup_updateErr he hne hs hu]
          exact Or.inr ⟨some ue, rfl⟩

/-- A group's closure depends only on what the external services answer
to that group; the rest of the environment is irrelevant. -/
theorem processGroup_congr {env1 env2 : Env} (g : Group)
    (hs : env1.sendResult g = env2.sendResult g)
    (hu : env1.updateResult g = env2.updateResult g) :
    processGroup env1 g = processGroup env2 g := by
  unfold processGroup
  rw [hs, hu]

/-! ### Collecting the settled results -/

theorem foldl_collectResult (l : List Settled) :
    ∀ r : Results,
      l.foldl collectResult r =
        ⟨r.success ++ l.flatMap succOf, r.failed ++ l.flatMap failOf⟩ := by
  induction l with
  | nil => intro r; simp
  | cons s l ih =>
    intro r
    rw [List.foldl_cons, ih]
    cases s with
    | fulfilled v => cases v <;> simp [collectResult, succOf, failOf]
    | rejected e => simp [collectResult, succOf, failOf]

/-- Filtering the concatenated per-group entries down to one group's user
identifier recovers exactly that group's own entries, as the identifiers
are pairwise distinct. -/
theorem filter_flatMap_id {α : Type} (idOf : α → Nat) (ext : Group → List α)
    (hid : ∀ g' x, x ∈ ext g' → idOf x = g'.id_user) :
    ∀ (groups : List Group), (groups.map Group.id_user).Nodup →
      ∀ {g : Group}, g ∈ groups →
        (groups.flatMap ext).filter (fun x => idOf x = g.id_user) = ext g := by
  intro groups
  induction groups with
  | nil => intro _ g hg; cases hg
  | cons g0 rest ih =>
    intro hN g hg
    have hN' : (rest.map Group.id_user).Nodup := (List.nodup_cons.mp hN).2
    have hnot : g0.id_user ∉ rest.map Group.id_user := (List.nodup_cons.mp hN).1
    rw [List.flatMap_cons, List.filter_append]
    rcases List.mem_cons.mp hg with rfl | hg'
    · have h1 : (ext g).filter (fun x => idOf x = g.id_user) = ext g :=
        List.filter_eq_self.mpr fun x hx => decide_eq_true (hid g x hx)
      have h2 : (rest.flatMap ext).filter (fun x => idOf x = g.id_user) = [] := by
        refine List.filter_eq_nil_iff.mpr fun x hx => ?_
        obtain ⟨g', hg', hxg'⟩ := List.mem_flatMap.mp hx
        have : idOf x = g'.id_user := hid g' x hxg'
        simp only [this]
        intro hcontra
        exact hnot ((of_decide_eq_true hcontra) ▸ List.mem_map.mpr ⟨g', hg', rfl⟩)
      rw [h1, h2, List.append_nil]
    · have h1 : (ext g0).filter (fun x => idOf x = g.id_user) = [] := by
        refine List.filter_eq_nil_iff.mpr fun x hx => ?_
        have hx0 : idOf x = g0.id_user := hid g0 x hx
        simp only [hx0]
        intro hcontra
        exact hnot ((of_decide_eq_true hcontra).symm ▸
          List.mem_map.mpr ⟨g, hg', rfl⟩)
      rw [h1, ih hN' hg', List.nil_append]

/-! ### The completed run, in closed form -/

theorem POST_run (secret : String) (env : Env) (db : List Row)
    {ts : List TicketData} (hne : ts ≠ []) :
    POST (some ("Bearer " ++ secret)) secret (.ok ts) env db =
      { response := .completed
          ⟨(dispatchGroups ts).flatMap (fun g => succOf (processGroup env g).settled),
            (dispatchGroups ts).flatMap (fun g => failOf (processGroup env g).settled)⟩
        db := ((dispatchGroups ts).flatMap
            (fun g => (processGroup env g).updateAttempts)).foldl applyAttempt db
        sendCalls := (dispatchGroups ts).flatMap
            (fun g => (processGroup env g).sendCalls)
        updateAttempts := (dispatchGroups ts).flatMap
            (fun g => (processGroup env g).updateAttempts) } := by
  have hlen : ¬ts.length = 0 := by simpa [List.length_eq_zero] using hne
  unfold POST
  rw [if_neg (not_not_intro rfl)]
  dsimp only
  rw [if_neg hlen]
  rw [foldl_collectResult]
  simp only [List.map_map, List.flatMap_map, List.nil_append, Function.comp]

/-- In a completed run, the success entries mentioning a group's user are
exactly the success entries that group's own closure produced. -/
theorem POST_successFor (secret : String) (env : Env) (db : List Row)
    {ts : List TicketData} (hne : ts ≠ []) {g : Group}
    (hg : g ∈ dispatchGroups ts) :
    successFor (POST (some ("Bearer " ++ secret)) secret (.ok ts) env db)
        g.id_user = succOf (processGroup env g).settled := by
  rw [POST_run secret env db hne]
  unfold successFor successList
  exact filter_flatMap_id (SuccessEntry.id_user)
    (fun g' => succOf (processGroup env g').settled)
    (fun g' x hx => (settled_id env g').1 x hx)
    (dispatchGroups ts) (dispatchGroups_nodup ts) hg

/-- In a completed run, the failed entries mentioning a group's user are
exactly the failed entries that group's own closure produced. -/
theorem POST_failedFor (secret : String) (env : Env) (db : List Row)
    {ts : List TicketData} (hne : ts ≠ []) {g : Group}
    (hg : g ∈ dispatchGroups ts) :
    failedFor (POST (some ("Bearer " ++ secret)) secret (.ok ts) env db)
        g.id_user = failOf (processGroup env g).settled := by
  rw [POST_run secret env db hne]
  unfold failedFor failedList
  exact filter_flatMap_id (FailedEntry.id_user)
    (fun g' => failOf (processGroup env g').settled)
    (fun g' x hx => (settled_id env g').2 x hx)
    (dispatchGroups ts) (dispatchGroups_nodup ts) hg

/-! ### Database update algebra -/

theorem applyAttempt_eq_map (db : List Row) (a : UpdateAttempt) :
    applyAttempt db a = db.map (stepRow a) := by
  cases h : a.result with
  | some e =>
    have hs : stepRow a = fun r => r := by funext r; simp [stepRow, h]
    simp [applyAttempt, h, hs]
  | none =>
    have hs : stepRow a = fun r =>
        if r.id_tickets ∈ a.ids then { r with email_send := true } else r := by
      funext r; simp [stepRow, h]
    simp [applyAttempt, h, hs]

theorem finalRow_cons (a : UpdateAttempt) (as : List UpdateAttempt) (r : Row) :
    finalRow as (stepRow a r) = finalRow (a :: as) r := by
  cases h : a.result with
  | some e =>
    have hs : stepRow a r = r := by simp [stepRow, h]
    have hhead : (a.result.isNone && decide (r.id_tickets ∈ a.ids)) = false := by
      simp [h]
    rw [hs]
    unfold finalRow
    rw [List.any_cons, hhead, Bool.false_or]
  | none =>
    by_cases hm : r.id_tickets ∈ a.ids
    · have hs : stepRow a r = { r with email_send := true } := by
        simp [stepRow, h, hm]
      have hhead : (a.result.isNone && decide (r.id_tickets ∈ a.ids)) = true := by
        simp [h, hm]
      rw [hs]
      unfold finalRow
      rw [List.any_cons, hhead]
      simp only [Bool.true_or, if_true]
      split <;> rfl
    · have hs : stepRow a r = r := by simp [stepRow, h, hm]
      have hhead : (a.result.isNone && decide (r.id_tickets ∈ a.ids)) = false := by
        simp [h, hm]
      rw [hs]
      unfold finalRow
      rw [List.any_cons, hhead, Bool.false_or]

theorem foldl_applyAttempt (attempts : List UpdateAttempt) :
    ∀ db : List Row, attempts.foldl applyAttempt db = db.map (finalRow attempts) := by
  induction attempts with
  | nil =>
    intro db
    have h0 : finalRow [] = fun r => r := by funext r; simp [finalRow]
    simp [h0]
  | cons a as ih =>
    intro db
    rw [List.foldl_cons, applyAttempt_eq_map, ih, List.map_map]
    apply List.map_congr_left
    intro r _
    exact finalRow_cons a as r

/-- A row targeted by no successful update call is left unchanged. -/
theorem finalRow_untouched {attempts : List UpdateAttempt} {r : Row}
    (h : ∀ a ∈ attempts, a.result = none → r.id_tickets ∉ a.ids) :
    finalRow attempts r = r := by
  unfold finalRow
  rw [if_neg]
  intro hc
  obtain ⟨a, ha, hfa⟩ := List.any_eq_true.mp hc
  obtain ⟨h1, h2⟩ := Bool.and_eq_true_iff.mp hfa
  exact h a ha (Option.isNone_iff_eq_none.mp h1) (of_decide_eq_true h2)

/-- A row targeted by some successful update call ends with
`email_send = true` and an unchanged identifier. -/
theorem finalRow_set {attempts : List UpdateAttempt} {r : Row} {a : UpdateAttempt}
    (ha : a ∈ attempts) (hres : a.result = none) (hm : r.id_tickets ∈ a.ids) :
    finalRow attempts r = { r with email_send := true } := by
  unfold finalRow
  rw [if_pos]
  exact List.any_eq_true.mpr ⟨a, ha, by simp [hres, hm]⟩

/-! ### Ticket-identifier disjointness across groups -/

theorem ticket_ids_inj {ts : List TicketData}
    (hN : (ts.map TicketData.id_tickets).Nodup) {t1 t2 : TicketData}
    (h1 : t1 ∈ ts) (h2 : t2 ∈ ts) (he : t1.id_tickets = t2.id_tickets) :
    t1 = t2 :=
  List.inj_on_of_nodup_map hN h1 h2 he

/-- With primary-key ticket identifiers, distinct groups target disjoint
identifier sets. -/
theorem group_ids_disjoint {ts : List TicketData}
    (hN : (ts.map TicketData.id_tickets).Nodup) {g1 g2 : Group}
    (hg1 : g1 ∈ dispatchGroups ts) (hg2 : g2 ∈ dispatchGroups ts)
    (hne : g1.id_user ≠ g2.id_user) {i : Nat}
    (hi : i ∈ g1.tickets.map TicketData.id_tickets) :
    i ∉ g2.tickets.map TicketData.id_tickets := by
  intro hi2
  obtain ⟨t1, ht1, hid1⟩ := List.mem_map.mp hi
  obtain ⟨t2, ht2, hid2⟩ := List.mem_map.mp hi2
  have m1 := (mem_groupTickets_tickets (mem_dispatchGroups.mp hg1) t1).mp ht1
  have m2 := (mem_groupTickets_tickets (mem_dispatchGroups.mp hg2) t2).mp ht2
  have ht12 : t1 = t2 := ticket_ids_inj hN m1.1 m2.1 (hid1.trans hid2.symm)
  subst ht12
  have := m1.2.symm.trans m2.2
  exact hne (Option.some.inj this)

/-- Any update call of the run targets exactly the ticket identifiers of
the group that issued it. -/
theorem attempt_ids_eq {env : Env} {g : Group} {a : UpdateAttempt}
    (ha : a ∈ (processGroup env g).updateAttempts) :
    a.ids = g.tickets.map TicketData.id_tickets := by
  rcases processGroup_attempts env g with h | ⟨res, h⟩
  · rw [h] at ha; cases ha
  · rw [h] at ha
    rw [List.mem_singleton] at ha
    subst ha; rfl

/-- A row no group's successful update call targets survives the run
unchanged. -/
theorem POST_row_untouched (secret : String) (env : Env) (db : List Row)
    {ts : List TicketData} (hne : ts ≠ []) {k : Nat} {r : Row}
    (hr : db[k]? = some r)
    (h : ∀ g ∈ dispatchGroups ts, ∀ a ∈ (processGroup env g).updateAttempts,
      a.result = none → r.id_tickets ∉ a.ids) :
    (POST (some ("Bearer " ++ secret)) secret (.ok ts) env db).db[k]? = some r := by
  rw [POST_run secret env db hne]
  dsimp only
  rw [foldl_applyAttempt, List.getElem?_map, hr, Option.map_some']
  congr 1
  apply finalRow_untouched
  intro a ha hres
  obtain ⟨g, hg, hga⟩ := List.mem_flatMap.mp ha
  exact h g hg a hga hres

/-- A row belonging to a group that performed no successful update call
survives the run unchanged, assuming primary-key ticket identifiers. -/
theorem row_of_group_untouched (secret : String) (env : Env) (db : List Row)
    {ts : List TicketData} (hne : ts ≠ [])
    (hN : (ts.map TicketData.id_tickets).Nodup) {g : Group}
    (hg : g ∈ dispatchGroups ts)
    (hnone : ∀ a ∈ (processGroup env g).updateAttempts, a.result ≠ none)
    {k : Nat} {r : Row} (hr : db[k]? = some r)
    (hrid : r.id_tickets ∈ g.tickets.map TicketData.id_tickets) :
    (POST (some ("Bearer " ++ secret)) secret (.ok ts) env db).db[k]? = some r := by
  apply POST_row_untouched secret env db hne hr
  intro g' hg' a ha hres
  have hids := attempt_ids_eq ha
  by_cases hgg : g'.id_user = g.id_user
  · have hgeq : g' = g := groups_id_inj (dispatchGroups_nodup ts) hg' hg hgg
    subst hgeq
    exact absurd hres (hnone a ha)
  · rw [hids]
    exact group_ids_disjoint hN hg hg' (fun hh => hgg hh.symm) hrid

/-- Whenever the group's email is truthy, the provider is called exactly
once, with the rendered payload, whatever the provider then answers. -/
theorem processGroup_sendCalls (env : Env) {g : Group} {e : String}
    (he : g.email = some e) (hee : e ≠ "") :
    (processGroup env g).sendCalls = [renderPayload g e] := by
  rcases hs : env.sendResult g with se | so
  · rw [processGroup_sendErr he hee hs]
  · rcases hu : env.updateResult g with _ | ue
    · rw [processGroup_ok he hee hs hu]
    · rw [processGroup_updateErr he hee hs hu]

/-- Capitalizing a nonempty name yields a nonempty string, so the
`|| 'Participante'` fallback is not taken. -/
theorem capitalizeFirst_ne_empty {s : String} (h : s ≠ "") :
    capitalizeFirst s ≠ "" := by
  unfold capitalizeFirst
  cases hd : s.data with
  | nil =>
    exfalso
    apply h
    cases s with
    | mk data =>
      simp only at hd
      rw [hd]
  | cons c cs =>
    intro hc
    have hdata := congrArg String.data hc
    simp at hdata

/-! ### The claims -/

/-- C1: For every group formed by the dispatcher, the returned report
contains exactly one entry for that user — either one success entry or
one failed entry, never both and never neither. -/
theorem C1_one_entry_per_group (secret : String) (env : Env) (db : List Row)
    {ts : List TicketData} (hne : ts ≠ []) {g : Group}
    (hg : g ∈ dispatchGroups ts) :
    (successFor (POST (some ("Bearer " ++ secret)) secret (.ok ts) env db)
        g.id_user).length +
      (failedFor (POST (some ("Bearer " ++ secret)) secret (.ok ts) env db)
        g.id_user).length = 1 := by
  rw [POST_successFor secret env db hne hg, POST_failedFor secret env db hne hg]
  exact succOf_failOf_length _

theorem C1_witness :
    (successFor (POST (some ("Bearer " ++ "s")) "s" (.ok tsSample) envOk dbSample)
        gAna.id_user).length +
      (failedFor (POST (some ("Bearer " ++ "s")) "s" (.ok tsSample) envOk dbSample)
        gAna.id_user).length = 1 :=
  C1_one_entry_per_group "s" envOk dbSample (by decide) (by decide)

/-- C2: The entry recorded for a group depends only on how the external
services answer that group's own calls: under two environments that agree
on the group, the run (even over different tables) reports identical
success and failed entries for that group's user, regardless of what
happens to any sibling group. -/
theorem C2_sibling_independence (secret : String) (env1 env2 : Env)
    (db1 db2 : List Row) {ts : List TicketData} (hne : ts ≠ []) {g : Group}
    (hg : g ∈ dispatchGroups ts)
    (hs : env1.sendResult g = env2.sendResult g)
    (hu : env1.updateResult g = env2.updateResult g) :
    successFor (POST (some ("Bearer " ++ secret)) secret (.ok ts) env1 db1)
        g.id_user =
      successFor (POST (some ("Bearer " ++ secret)) secret (.ok ts) env2 db2)
        g.id_user ∧
    failedFor (POST (some ("Bearer " ++ secret)) secret (.ok ts) env1 db1)
        g.id_user =
      failedFor (POST (some ("Bearer " ++ secret)) secret (.ok ts) env2 db2)
        g.id_user := by
  rw [POST_successFor secret env1 db1 hne hg, POST_successFor secret env2 db2 hne hg,
    POST_failedFor secret env1 db1 hne hg, POST_failedFor secret env2 db2 hne hg,
    processGroup_congr g hs hu]
  exact ⟨rfl, rfl⟩

theorem C2_witness :
    successFor (POST (some ("Bearer " ++ "s")) "s" (.ok tsSample) envOk dbSample)
        gAna.id_user =
      successFor (POST (some ("Bearer " ++ "s")) "s" (.ok tsSample) envBobFail dbSample)
        gAna.id_user ∧
    failedFor (POST (some ("Bearer " ++ "s")) "s" (.ok tsSample) envOk dbSample)
        gAna.id_user =
      failedFor (POST (some ("Bearer " ++ "s")) "s" (.ok tsSample) envBobFail dbSample)
        gAna.id_user :=
  C2_sibling_independence "s" envOk envBobFail dbSample dbSample (by decide)
    (by decide) rfl rfl

/-- C5: When a group's send succeeds but its database update fails, the
report carries a failed entry for that user whose error text states that
the email was sent but the database update failed — distinguishable from
a send failure — and no success entry. -/
theorem C5_update_failure (secret : String) (env : Env) (db : List Row)
    {ts : List TicketData} (hne : ts ≠ []) {g : Group}
    (hg : g ∈ dispatchGroups ts) {e : String} (he : g.email = some e)
    (hee : e ≠ "") {so : SendOk} (hs : env.sendResult g = .ok so)
    {ue : UpdateErr} (hu : env.updateResult g = some ue) :
    failedFor (POST (some ("Bearer " ++ secret)) secret (.ok ts) env db)
        g.id_user =
      [⟨g.id_user, "Email sent, but DB update failed: " ++ ue.message⟩] ∧
    successFor (POST (some ("Bearer " ++ secret)) secret (.ok ts) env db)
        g.id_user = [] := by
  rw [POST_failedFor secret env db hne hg, POST_successFor secret env db hne hg,
    processGroup_updateErr he hee hs hu]
  exact ⟨rfl, rfl⟩

theorem C5_witness :
    failedFor (POST (some ("Bearer " ++ "s")) "s" (.ok tsSample) envUpdFail dbSample)
        gAna.id_user =
      [⟨gAna.id_user, "Email sent, but DB update failed: " ++ ("db down" : String)⟩] ∧
    successFor (POST (some ("Bearer " ++ "s")) "s" (.ok tsSample) envUpdFail dbSample)
        gAna.id_user = [] :=
  C5_update_failure "s" envUpdFail dbSample (by decide) (by decide) rfl
    (by decide) rfl rfl

/-- C6: A group whose user has no usable email address yields a failed
entry with the missing-email message, no success entry, no provider call
and no database update attempt for that group. -/
theorem C6_missing_email (secret : String) (env : Env) (db : List Row)
    {ts : List TicketData} (hne : ts ≠ []) {g : Group}
    (hg : g ∈ dispatchGroups ts) (he : emailTruthy g.email = false) :
    failedFor (POST (some ("Bearer " ++ secret)) secret (.ok ts) env db)
        g.id_user = [⟨g.id_user, missingEmailMsg⟩] ∧
    successFor (POST (some ("Bearer " ++ secret)) secret (.ok ts) env db)
        g.id_user = [] ∧
    (processGroup env g).sendCalls = [] ∧
    (processGroup env g).updateAttempts = [] := by
  rw [POST_failedFor secret env db hne hg, POST_successFor secret env db hne hg,
    processGroup_noEmail he]
  exact ⟨rfl, rfl, rfl, rfl⟩

theorem C6_witness :
    failedFor (POST (some ("Bearer " ++ "s")) "s" (.ok tsSample) envOk dbSample)
        gBob.id_user = [⟨gBob.id_user, missingEmailMsg⟩] ∧
    successFor (POST (some ("Bearer " ++ "s")) "s" (.ok tsSample) envOk dbSample)
        gBob.id_user = [] ∧
    (processGroup envOk gBob).sendCalls = [] ∧
    (processGroup envOk gBob).updateAttempts = [] :=
  C6_missing_email "s" envOk dbSample (by decide) (by decide) rfl

/-- C7: A fetch error terminates the run with the 500 fetch-failure
response carrying the error detail, leaving the table untouched and
making no provider call and no update call; an empty eligible set instead
yields the informational nothing-pending response, which is distinct from
every fetch-failure response. -/
theorem C7_fetch_error_and_empty (secret m : String) (env : Env)
    (db : List Row) :
    POST (some ("Bearer " ++ secret)) secret (.err m) env db =
      { response := .fetchFailed m, db := db, sendCalls := [],
        updateAttempts := [] } ∧
    POST (some ("Bearer " ++ secret)) secret (.ok []) env db =
      { response := .nothingPending, db := db, sendCalls := [],
        updateAttempts := [] } ∧
    ∀ m' : String, Response.nothingPending ≠ Response.fetchFailed m' := by
  refine ⟨?_, ?_, ?_⟩
  · unfold POST
    rw [if_neg (not_not_intro rfl)]
  · unfold POST
    rw [if_neg (not_not_intro rfl)]
    rfl
  · intro m' h
    cases h

/-- C3: For a group whose send and update both succeed, the report holds
one success entry with the user's identifier and the provider message
identifier, the run issues an update call targeting exactly the group's
ticket identifiers, every table row with one of those identifiers ends
with `email_send = true`, and a row of a sibling group that performed no
successful update keeps its value unchanged. -/
theorem C3_success_marks_exactly_group (secret : String) (env : Env)
    (db : List Row) {ts : List TicketData} (hne : ts ≠ [])
    (hN : (ts.map TicketData.id_tickets).Nodup) {g : Group}
    (hg : g ∈ dispatchGroups ts) {e : String} (he : g.email = some e)
    (hee : e ≠ "") {so : SendOk} (hs : env.sendResult g = .ok so)
    (hu : env.updateResult g = none) :
    successFor (POST (some ("Bearer " ++ secret)) secret (.ok ts) env db)
        g.id_user = [⟨g.id_user, so.id⟩] ∧
    failedFor (POST (some ("Bearer " ++ secret)) secret (.ok ts) env db)
        g.id_user = [] ∧
    (⟨g.tickets.map (·.id_tickets), none⟩ : UpdateAttempt) ∈
      (POST (some ("Bearer " ++ secret)) secret (.ok ts) env db).updateAttempts ∧
    (∀ k : Nat, ∀ r : Row, db[k]? = some r →
      r.id_tickets ∈ g.tickets.map TicketData.id_tickets →
      (POST (some ("Bearer " ++ secret)) secret (.ok ts) env db).db[k]? =
        some ⟨r.id_tickets, true⟩) ∧
    (∀ g' ∈ dispatchGroups ts, g'.id_user ≠ g.id_user →
      (∀ a ∈ (processGroup env g').updateAttempts, a.result ≠ none) →
      ∀ k : Nat, ∀ r : Row, db[k]? = some r →
        r.id_tickets ∈ g'.tickets.map TicketData.id_tickets →
        (POST (some ("Bearer " ++ secret)) secret (.ok ts) env db).db[k]? =
          some r) := by
  have hpg := processGroup_ok he hee hs hu
  refine ⟨?_, ?_, ?_, ?_, ?_⟩
  · rw [POST_successFor secret env db hne hg, hpg]; rfl
  · rw [POST_failedFor secret env db hne hg, hpg]; rfl
  · rw [POST_run secret env db hne]
    exact List.mem_flatMap.mpr ⟨g, hg, by rw [hpg]; exact List.mem_singleton.mpr rfl⟩
  · intro k r hr hm
    rw [POST_run secret env db hne]
    dsimp only
    rw [foldl_applyAttempt, List.getElem?_map, hr, Option.map_some']
    have hmem : (⟨g.tickets.map (·.id_tickets), none⟩ : UpdateAttempt) ∈
        (dispatchGroups ts).flatMap
          (fun g' => (processGroup env g').updateAttempts) :=
      List.mem_flatMap.mpr ⟨g, hg, by rw [hpg]; exact List.mem_singleton.mpr rfl⟩
    rw [finalRow_set hmem rfl hm]
  · intro g' hg' hneq hnone k r hr hm
    exact row_of_group_untouched secret env db hne hN hg' hnone hr hm

theorem C3_witness :
    successFor (POST (some ("Bearer " ++ "s")) "s" (.ok tsSample) envOk dbSample)
        gAna.id_user = [⟨gAna.id_user, "em1"⟩] ∧
    (POST (some ("Bearer " ++ "s")) "s" (.ok tsSample) envOk dbSample).db[0]? =
      some ⟨10, true⟩ :=
  ⟨(@C3_success_marks_exactly_group "s" envOk dbSample tsSample (by decide)
      (by decide) gAna (by decide) "ana@example.com" rfl (by decide) ⟨"em1"⟩
      rfl rfl).1,
    (@C3_success_marks_exactly_group "s" envOk dbSample tsSample (by decide)
      (by decide) gAna (by decide) "ana@example.com" rfl (by decide) ⟨"em1"⟩
      rfl rfl).2.2.2.1 0 ⟨10, false⟩ rfl (by decide)⟩

/-- C4: For a group whose send fails, the report holds one failed entry
carrying the provider's error text, no success entry, the group makes no
update call, and every row carrying one of the group's ticket
identifiers is left unchanged by the run. -/
theorem C4_send_failure (secret : String) (env : Env) (db : List Row)
    {ts : List TicketData} (hne : ts ≠ [])
    (hN : (ts.map TicketData.id_tickets).Nodup) {g : Group}
    (hg : g ∈ dispatchGroups ts) {e : String} (he : g.email = some e)
    (hee : e ≠ "") {se : SendErr} (hs : env.sendResult g = .error se) :
    failedFor (POST (some ("Bearer " ++ secret)) secret (.ok ts) env db)
        g.id_user = [⟨g.id_user, sendErrText se⟩] ∧
    successFor (POST (some ("Bearer " ++ secret)) secret (.ok ts) env db)
        g.id_user = [] ∧
    (processGroup env g).updateAttempts = [] ∧
    (∀ k : Nat, ∀ r : Row, db[k]? = some r →
      r.id_tickets ∈ g.tickets.map TicketData.id_tickets →
      (POST (some ("Bearer " ++ secret)) secret (.ok ts) env db).db[k]? =
        some r) := by
  have hpg := processGroup_sendErr he hee hs
  refine ⟨?_, ?_, ?_, ?_⟩
  · rw [POST_failedFor secret env db hne hg, hpg]
    rfl
  · rw [POST_successFor secret env db hne hg, hpg]
    rfl
  · rw [hpg]
  · intro k r hr hm
    refine row_of_group_untouched secret env db hne hN hg ?_ hr hm
    rw [hpg]
    intro a ha
    cases ha

theorem C4_witness :
    failedFor (POST (some ("Bearer " ++ "s")) "s" (.ok tsSample) envSendFail dbSample)
        gAna.id_user = [⟨gAna.id_user, sendErrText ⟨"provider down", "{}"⟩⟩] ∧
    (processGroup envSendFail gAna).updateAttempts = [] ∧
    (POST (some ("Bearer " ++ "s")) "s" (.ok tsSample) envSendFail dbSample).db[0]? =
      some ⟨10, false⟩ :=
  ⟨(@C4_send_failure "s" envSendFail dbSample tsSample (by decide) (by decide)
      gAna (by decide) "ana@example.com" rfl (by decide)
      ⟨"provider down", "{}"⟩ rfl).1,
    (@C4_send_failure "s" envSendFail dbSample tsSample (by decide) (by decide)
      gAna (by decide) "ana@example.com" rfl (by decide)
      ⟨"provider down", "{}"⟩ rfl).2.2.1,
    (@C4_send_failure "s" envSendFail dbSample tsSample (by decide) (by decide)
      gAna (by decide) "ana@example.com" rfl (by decide)
      ⟨"provider down", "{}"⟩ rfl).2.2.2 0 ⟨10, false⟩ rfl (by decide)⟩

/-- C8: Grouping is keyed by the resolved user identifier: two fetched
tickets resolving to the same identifier share a group, every group's
tickets agree on their resolved identifier (so tickets of different
users never share a group), and a group holds exactly the fetched
tickets resolving to its key. -/
theorem C8_grouping (ts : List TicketData) :
    (∀ t1 ∈ ts, ∀ t2 ∈ ts, ∀ u1 u2 : UserData, resolveUser t1 = some u1 →
      resolveUser t2 = some u2 → u1.id_user = u2.id_user →
      ∃ g ∈ dispatchGroups ts, t1 ∈ g.tickets ∧ t2 ∈ g.tickets) ∧
    (∀ g ∈ dispatchGroups ts, ∀ t1 ∈ g.tickets, ∀ t2 ∈ g.tickets,
      resolveUserId t1 = resolveUserId t2) ∧
    (∀ g ∈ dispatchGroups ts, ∀ t ∈ ts,
      (t ∈ g.tickets ↔ resolveUserId t = some g.id_user)) := by
  refine ⟨?_, ?_, ?_⟩
  · intro t1 h1 t2 h2 u1 u2 hu1 hu2 heq
    have hid1 : resolveUserId t1 = some u1.id_user := by
      simp [resolveUserId, hu1]
    have hid2 : resolveUserId t2 = some u1.id_user := by
      simp [resolveUserId, hu2, heq]
    have hmem : u1.id_user ∈ (groupTickets ts).map Group.id_user :=
      (groupTickets_id_mem ts u1.id_user).mpr ⟨t1, h1, hid1⟩
    obtain ⟨g, hgmem, hgid⟩ := List.mem_map.mp hmem
    refine ⟨g, mem_dispatchGroups.mpr hgmem, ?_, ?_⟩
    · exact (mem_groupTickets_tickets hgmem t1).mpr ⟨h1, by rw [hid1, hgid]⟩
    · exact (mem_groupTickets_tickets hgmem t2).mpr ⟨h2, by rw [hid2, hgid]⟩
  · intro g hg t1 h1 t2 h2
    have m1 := (mem_groupTickets_tickets (mem_dispatchGroups.mp hg) t1).mp h1
    have m2 := (mem_groupTickets_tickets (mem_dispatchGroups.mp hg) t2).mp h2
    rw [m1.2, m2.2]
  · intro g hg t hts
    constructor
    · intro h
      exact ((mem_groupTickets_tickets (mem_dispatchGroups.mp hg) t).mp h).2
    · intro h
      exact (mem_groupTickets_tickets (mem_dispatchGroups.mp hg) t).mpr ⟨hts, h⟩

theorem C8_witness :
    ∃ g ∈ dispatchGroups tsSample, tk7 ∈ g.tickets ∧ tk42 ∈ g.tickets :=
  (C8_grouping tsSample).1 tk7 (by decide) tk42 (by decide) uAna uAna rfl rfl rfl

/-- C9 counterexample: for a sent group whose stored user name is empty,
the display name prop handed to the template is the fallback
"Participante", which differs from the user's name with its first letter
capitalized (the empty string) — so the claim as stated fails on
empty-named users. -/
theorem C9_counterexample :
    (dispatchGroups [tkEve]).map Group.name = [""] ∧
    (POST (some ("Bearer " ++ "s")) "s" (.ok [tkEve]) envOk dbSample).sendCalls.map
        EmailPayload.reactName = ["Participante"] ∧
    ("Participante" : String) ≠ capitalizeFirst "" := by
  exact ⟨by decide, by decide, by decide⟩

/-- C9 (amended): for every group that is sent, the provider is called
exactly once with the rendered payload; its ticket-list prop is the
group's codes zero-padded to width four and comma-joined; the subject
uses the name with its first letter capitalized; and the display name
prop is the capitalized name whenever the stored name is nonempty, with
the fallback "Participante" taken when the stored name is empty. -/
theorem C9_amended_rendering (secret : String) (env : Env) (db : List Row)
    {ts : List TicketData} (hne : ts ≠ []) {g : Group}
    (hg : g ∈ dispatchGroups ts) {e : String} (he : g.email = some e)
    (hee : e ≠ "") :
    (processGroup env g).sendCalls = [renderPayload g e] ∧
    renderPayload g e ∈
      (POST (some ("Bearer " ++ secret)) secret (.ok ts) env db).sendCalls ∧
    (renderPayload g e).reactTickets =
      joinComma (g.tickets.map (fun t => padStart4 t.tickets)) ∧
    (renderPayload g e).subject =
      "Tu Compra ha sido Aprobada " ++ capitalizeFirst g.name ++ " " ∧
    (g.name ≠ "" → (renderPayload g e).reactName = capitalizeFirst g.name) ∧
    (g.name = "" → (renderPayload g e).reactName = "Participante") := by
  refine ⟨processGroup_sendCalls env he hee, ?_, rfl, rfl, ?_, ?_⟩
  · rw [POST_run secret env db hne]
    exact List.mem_flatMap.mpr ⟨g, hg, by
      rw [processGroup_sendCalls env he hee]
      exact List.mem_singleton.mpr rfl⟩
  · intro hn
    have hcap : capitalizeFirst g.name ≠ "" := capitalizeFirst_ne_empty hn
    simp [renderPayload, hcap]
  · intro hn
    simp [renderPayload, hn, capitalizeFirst]

theorem C9_witness :
    (renderPayload gAna "ana@example.com").reactTickets =
      joinComma (gAna.tickets.map (fun t => padStart4 t.tickets)) ∧
    (renderPayload gAna "ana@example.com").reactName =
      capitalizeFirst gAna.name ∧
    joinComma (gAna.tickets.map (fun t => padStart4 t.tickets)) = "0007, 0042" :=
  ⟨(@C9_amended_rendering "s" envOk dbSample tsSample (by decide) gAna
      (by decide) "ana@example.com" rfl (by decide)).2.2.1,
    (@C9_amended_rendering "s" envOk dbSample tsSample (by decide) gAna
      (by decide) "ana@example.com" rfl (by decide)).2.2.2.2.1 (by decide),
    by decide⟩

/-- C10: A fetched ticket resolving to no user record is silently
skipped: the grouping is the one computed without it, it lies in no
group, a run over the set with it equals the run over the set without it
(when something else remains), and its table row is left unchanged. -/
theorem C10_unresolved_skipped (secret : String) (env : Env) (db : List Row)
    {t : TicketData} (ht : resolveUser t = none) (l1 l2 : List TicketData)
    (hN : ((l1 ++ t :: l2).map TicketData.id_tickets).Nodup) :
    groupTickets (l1 ++ t :: l2) = groupTickets (l1 ++ l2) ∧
    (∀ g ∈ dispatchGroups (l1 ++ t :: l2), t ∉ g.tickets) ∧
    (l1 ++ l2 ≠ [] →
      POST (some ("Bearer " ++ secret)) secret (.ok (l1 ++ t :: l2)) env db =
        POST (some ("Bearer " ++ secret)) secret (.ok (l1 ++ l2)) env db) ∧
    (∀ k : Nat, ∀ r : Row, db[k]? = some r → r.id_tickets = t.id_tickets →
      (POST (some ("Bearer " ++ secret)) secret
          (.ok (l1 ++ t :: l2)) env db).db[k]? = some r) := by
  have hne1 : l1 ++ t :: l2 ≠ [] := by simp
  have hgt : groupTickets (l1 ++ t :: l2) = groupTickets (l1 ++ l2) := by
    unfold groupTickets
    rw [List.foldl_append, List.foldl_append, List.foldl_cons]
    congr 1
    unfold groupStep
    rw [ht]
  have hdg : dispatchGroups (l1 ++ t :: l2) = dispatchGroups (l1 ++ l2) := by
    unfold dispatchGroups jsValues
    rw [hgt]
  refine ⟨hgt, ?_, ?_, ?_⟩
  · intro g hg hmem
    have h2 := (mem_groupTickets_tickets (mem_dispatchGroups.mp hg) t).mp hmem
    exact absurd h2.2 (by simp [resolveUserId, ht])
  · intro hne2
    rw [POST_run secret env db hne1, POST_run secret env db hne2, hdg]
  · intro k r hr hrid
    apply POST_row_untouched secret env db hne1 hr
    intro g hg a ha hres
    rw [attempt_ids_eq ha, hrid]
    intro hmemids
    obtain ⟨t', ht', hid⟩ := List.mem_map.mp hmemids
    have m := (mem_groupTickets_tickets (mem_dispatchGroups.mp hg) t').mp ht'
    have htm : t ∈ l1 ++ t :: l2 :=
      List.mem_append.mpr (Or.inr (List.mem_cons_self _ _))
    have ht't : t' = t := ticket_ids_inj hN m.1 htm hid
    subst ht't
    exact absurd m.2 (by simp [resolveUserId, ht])

theorem C10_witness :
    groupTickets ([tk7] ++ tkNull :: [tk3]) = groupTickets ([tk7] ++ [tk3]) ∧
    (POST (some ("Bearer " ++ "s")) "s" (.ok ([tk7] ++ tkNull :: [tk3]))
        envOk dbSample).db[3]? = some ⟨14, false⟩ :=
  ⟨(@C10_unresolved_skipped "s" envOk dbSample tkNull rfl [tk7] [tk3]
      (by decide)).1,
    (@C10_unresolved_skipped "s" envOk dbSample tkNull rfl [tk7] [tk3]
      (by decide)).2.2.2 3 ⟨14, false⟩ rfl rfl⟩

end Rifas
